import Mathlib

/-!
Verification of the entry/exit/sync record lifecycle of the
security-integration-and-entry-control-system repository.

The repository holds two Python variants of the same access-control ledger:
`logger2.py` (the full variant with a `synced` column and a retention/sync
manager) and `logger.py` (the first variant without sync).  Both are thin
layers over one SQLite table `access_log`.  We embed the table as a list of
records plus the AUTOINCREMENT counter, SQL `ORDER BY` as a stable insertion
sort over a boolean comparator that models SQLite's text ordering
(byte/code-point lexicographic, `NULL` first ascending), and the interactive
and network collaborators (operator answers, the clock, the remote archive
server) as explicit parameters, mirroring the spec's description of them as
external collaborators.  Interactive inputs are modelled post-processing
(`.strip().lower()` happens in the thin input adapter).
-/

/-! ### Boolean total-preorder comparators (model of SQL ORDER BY keys) -/

/-- Comparator on `Char` by code point, as SQLite compares text bytes. -/
def charLeB (a b : Char) : Bool := a.toNat ≤ b.toNat

/-- Lexicographic lifting of a comparator to lists (model of text comparison:
shorter prefix first, otherwise first differing element decides). -/
def listLeB (le : α → α → Bool) : List α → List α → Bool
  | [], _ => true
  | _ :: _, [] => false
  | a :: as, b :: bs =>
    if le a b then (if le b a then listLeB le as bs else true) else false

/-- SQLite text `<=` on strings. -/
def strLeB (a b : String) : Bool := listLeB charLeB a.toList b.toList

/-- SQLite text `<` on strings (total order: strictly less iff not `>=`). -/
def strLtB (a b : String) : Bool := !(strLeB b a)

/-- Comparator on nullable columns: ascending SQLite order puts `NULL` first. -/
def optLeB (le : α → α → Bool) : Option α → Option α → Bool
  | none, _ => true
  | some _, none => false
  | some a, some b => le a b

/-- Second sort key used only to break ties of the first (lexicographic pair
of comparators, as in `ORDER BY k1, k2`). -/
def thenLe (le1 le2 : α → α → Bool) (a b : α) : Bool :=
  if le1 a b then (if le1 b a then le2 a b else true) else false

/-- Comparator pulled back along a key function (`ORDER BY f(row)`). -/
def pullLe (f : α → β) (le : β → β → Bool) (a b : α) : Bool := le (f a) (f b)

/-- Reversed comparator (`ORDER BY ... DESC`). -/
def flipLe (le : α → α → Bool) (a b : α) : Bool := le b a

def TotalB (le : α → α → Bool) : Prop := ∀ a b, le a b = true ∨ le b a = true

def TransB (le : α → α → Bool) : Prop :=
  ∀ a b c, le a b = true → le b c = true → le a c = true

theorem charLeB_total : TotalB charLeB := by
  intro a b
  simp only [charLeB, decide_eq_true_eq]
  exact Nat.le_total _ _

theorem charLeB_trans : TransB charLeB := by
  intro a b c hab hbc
  simp only [charLeB, decide_eq_true_eq] at *
  exact Nat.le_trans hab hbc

theorem listLeB_total (le : α → α → Bool) (htot : TotalB le) :
    TotalB (listLeB le) := by
  intro as
  induction as with
  | nil => intro bs; left; rfl
  | cons a as ih =>
    intro bs
    cases bs with
    | nil => right; rfl
    | cons b bs =>
      simp only [listLeB]
      by_cases hab : le a b = true
      · by_cases hba : le b a = true
        · rcases ih bs with h | h
          · left; simp [hab, hba, h]
          · right; simp [hab, hba, h]
        · left; simp [hab, hba]
      · have hba : le b a = true := (htot a b).resolve_left hab
        right; simp [hba, hab]

theorem listLeB_trans (le : α → α → Bool) (htr : TransB le) :
    TransB (listLeB le) := by
  intro as
  induction as with
  | nil => intro bs cs _ _; rfl
  | cons a as ih =>
    intro bs cs h1 h2
    cases bs with
    | nil => simp [listLeB] at h1
    | cons b bs =>
      cases cs with
      | nil => simp [listLeB] at h2
      | cons c cs =>
        simp only [listLeB] at h1 h2 ⊢
        by_cases hab : le a b = true
        · by_cases hbc : le b c = true
          · have hac : le a c = true := htr _ _ _ hab hbc
            simp only [hab, if_true] at h1
            simp only [hbc, if_true] at h2
            by_cases hca : le c a = true
            · have hba : le b a = true := htr _ _ _ hbc hca
              have hcb : le c b = true := htr _ _ _ hca hab
              simp only [hba, if_true] at h1
              simp only [hcb, if_true] at h2
              simp [hac, hca, ih bs cs h1 h2]
            · simp [hac, hca]
          · simp [hbc] at h2
        · simp [hab] at h1

theorem optLeB_total (le : α → α → Bool) (htot : TotalB le) :
    TotalB (optLeB le) := by
  intro a b
  cases a with
  | none => left; rfl
  | some x =>
    cases b with
    | none => right; rfl
    | some y => exact htot x y

theorem optLeB_trans (le : α → α → Bool) (htr : TransB le) :
    TransB (optLeB le) := by
  intro a b c h1 h2
  cases a with
  | none => rfl
  | some x =>
    cases b with
    | none => simp [optLeB] at h1
    | some y =>
      cases c with
      | none => simp [optLeB] at h2
      | some z => exact htr x y z h1 h2

theorem thenLe_total (le1 le2 : α → α → Bool)
    (h1 : TotalB le1) (h2 : TotalB le2) : TotalB (thenLe le1 le2) := by
  intro a b
  simp only [thenLe]
  rcases h1 a b with hab | hba
  · by_cases hba' : le1 b a = true
    · rcases h2 a b with h | h
      · left; simp [hab, hba', h]
      · right; simp [hab, hba', h]
    · left; simp [hab, hba']
  · by_cases hab' : le1 a b = true
    · rcases h2 a b with h | h
      · left; simp [hab', hba, h]
      · right; simp [hab', hba, h]
    · right; simp [hba, hab']

theorem thenLe_trans (le1 le2 : α → α → Bool)
    (htr1 : TransB le1) (htr2 : TransB le2) :
    TransB (thenLe le1 le2) := by
  intro a b c h1 h2
  simp only [thenLe] at h1 h2 ⊢
  by_cases hab : le1 a b = true
  · by_cases hbc : le1 b c = true
    · have hac : le1 a c = true := htr1 _ _ _ hab hbc
      simp only [hab, if_true] at h1
      simp only [hbc, if_true] at h2
      by_cases hca : le1 c a = true
      · have hba : le1 b a = true := htr1 _ _ _ hbc hca
        have hcb : le1 c b = true := htr1 _ _ _ hca hab
        simp only [hba, if_true] at h1
        simp only [hcb, if_true] at h2
        simp [hac, hca, htr2 _ _ _ h1 h2]
      · simp [hac, hca]
    · simp [hbc] at h2
  · simp [hab] at h1

theorem pullLe_total (f : α → β) (le : β → β → Bool) (h : TotalB le) :
    TotalB (pullLe f le) := fun a b => h (f a) (f b)

theorem pullLe_trans (f : α → β) (le : β → β → Bool) (h : TransB le) :
    TransB (pullLe f le) := fun a b c => h (f a) (f b) (f c)

theorem flipLe_total (le : α → α → Bool) (h : TotalB le) :
    TotalB (flipLe le) := fun a b => (h b a)

theorem flipLe_trans (le : α → α → Bool) (h : TransB le) :
    TransB (flipLe le) := fun a b c h1 h2 => h c b a h2 h1

theorem strLeB_total : TotalB strLeB := by
  intro a b; exact listLeB_total charLeB charLeB_total a.toList b.toList

theorem strLeB_trans : TransB strLeB := by
  intro a b c
  exact listLeB_trans charLeB charLeB_trans a.toList b.toList c.toList

/-! ### Insertion sort (model of the store's ORDER BY output) -/

/-- Insert `x` into `l` before the first element it compares `le` to. -/
def insertB (le : α → α → Bool) (x : α) : List α → List α
  | [] => [x]
  | y :: ys => if le x y then x :: y :: ys else y :: insertB le x ys

/-- Sort a list by the boolean comparator `le`; models the (otherwise
unspecified) row order produced by a SQL `ORDER BY`. -/
def sortB (le : α → α → Bool) : List α → List α
  | [] => []
  | x :: xs => insertB le x (sortB le xs)

theorem insertB_perm (le : α → α → Bool) (x : α) (l : List α) :
    List.Perm (insertB le x l) (x :: l) := by
  induction l with
  | nil => exact List.Perm.refl _
  | cons y ys ih =>
    simp only [insertB]
    by_cases h : le x y = true
    · simp [h]
    · simp only [h, if_false]
      exact (ih.cons y).trans (List.Perm.swap x y ys)

theorem sortB_perm (le : α → α → Bool) (l : List α) :
    List.Perm (sortB le l) l := by
  induction l with
  | nil => exact List.Perm.refl _
  | cons x xs ih =>
    exact (insertB_perm le x (sortB le xs)).trans (ih.cons x)

theorem insertB_pairwise (le : α → α → Bool) (htot : TotalB le) (htr : TransB le)
    (x : α) {l : List α} (hl : l.Pairwise (fun a b => le a b = true)) :
    (insertB le x l).Pairwise (fun a b => le a b = true) := by
  induction l with
  | nil => simp [insertB]
  | cons y ys ih =>
    rcases List.pairwise_cons.mp hl with ⟨hy, hys⟩
    simp only [insertB]
    by_cases h : le x y = true
    · rw [if_pos h]
      refine List.pairwise_cons.mpr ⟨?_, hl⟩
      intro z hz
      rcases List.mem_cons.mp hz with rfl | hz'
      · exact h
      · exact htr _ _ _ h (hy z hz')
    · rw [if_neg h]
      refine List.pairwise_cons.mpr ⟨?_, ih hys⟩
      intro z hz
      have hz2 : z ∈ x :: ys := (insertB_perm le x ys).mem_iff.mp hz
      rcases List.mem_cons.mp hz2 with h' | hz'
      · subst h'
        exact (htot z y).resolve_left h
      · exact hy z hz'

theorem sortB_pairwise (le : α → α → Bool) (htot : TotalB le) (htr : TransB le)
    (l : List α) : (sortB le l).Pairwise (fun a b => le a b = true) := by
  induction l with
  | nil => simp [sortB]
  | cons x xs ih => exact insertB_pairwise le htot htr x ih

/-! ### Maximum of a list of ids (model of ORDER BY id DESC LIMIT 1) -/

/-- Binary maximum used to model `ORDER BY id DESC LIMIT 1`. -/
def nmax (a b : Nat) : Nat := if a ≤ b then b else a

theorem le_nmax_left (a b : Nat) : a ≤ nmax a b := by
  unfold nmax; split <;> omega

theorem le_nmax_right (a b : Nat) : b ≤ nmax a b := by
  unfold nmax; split <;> omega

/-- Largest element of a nonempty list of numbers, `none` on the empty list. -/
def maxOfList : List Nat → Option Nat
  | [] => none
  | x :: xs => some (xs.foldl nmax x)

theorem foldl_max_le (xs : List Nat) : ∀ acc, acc ≤ xs.foldl nmax acc := by
  induction xs with
  | nil => intro acc; exact Nat.le_refl _
  | cons y ys ih =>
    intro acc
    exact Nat.le_trans (le_nmax_left acc y) (ih (nmax acc y))

theorem foldl_max_mem_le (xs : List Nat) :
    ∀ acc x, x ∈ xs → x ≤ xs.foldl nmax acc := by
  induction xs with
  | nil => intro acc x hx; cases hx
  | cons y ys ih =>
    intro acc x hx
    rcases List.mem_cons.mp hx with rfl | hx'
    · exact Nat.le_trans (le_nmax_right acc x) (foldl_max_le ys (nmax acc x))
    · exact ih (nmax acc y) x hx'

theorem foldl_max_mem (xs : List Nat) :
    ∀ acc, xs.foldl nmax acc = acc ∨ xs.foldl nmax acc ∈ xs := by
  induction xs with
  | nil => intro acc; left; rfl
  | cons y ys ih =>
    intro acc
    rcases ih (nmax acc y) with h | h
    · by_cases h' : acc ≤ y
      · right
        simp only [List.foldl]
        rw [h]
        have hmax : nmax acc y = y := by unfold nmax; simp [h']
        rw [hmax]
        exact List.mem_cons_self y ys
      · left
        simp only [List.foldl]
        rw [h]
        unfold nmax
        simp [h']
    · right
      simp only [List.foldl]
      exact List.mem_cons_of_mem _ h

theorem maxOfList_spec (l : List Nat) (m : Nat) (h : maxOfList l = some m) :
    m ∈ l ∧ ∀ x ∈ l, x ≤ m := by
  cases l with
  | nil => simp [maxOfList] at h
  | cons x xs =>
    simp only [maxOfList, Option.some.injEq] at h
    subst h
    constructor
    · rcases foldl_max_mem xs x with h | h
      · rw [h]; exact List.mem_cons_self _ _
      · exact List.mem_cons_of_mem _ h
    · intro y hy
      rcases List.mem_cons.mp hy with rfl | hy'
      · exact foldl_max_le xs y
      · exact foldl_max_mem_le xs x y hy'

theorem maxOfList_eq_none_iff (l : List Nat) : maxOfList l = none ↔ l = [] := by
  cases l <;> simp [maxOfList]

/-! ### Data model: one row of the `access_log` table, and the store -/

/-- One row of `access_log` in `logger2.py`'s schema.  `id` is the
AUTOINCREMENT primary key; nullable TEXT columns are `Option String`;
`synced INTEGER DEFAULT 0` is a boolean flag. -/
structure AccessRecord where
  id : Nat
  name : String
  date : String
  entry_time : Option String
  exit_time : Option String
  result : String
  reason : Option String
  synced : Bool
  deriving DecidableEq

/-- The SQLite store: the table's rows plus the AUTOINCREMENT counter. -/
structure Store where
  rows : List AccessRecord
  nextId : Nat
  deriving DecidableEq

/-- A freshly initialised database: empty table, ids start at 1. -/
def initStore : Store := { rows := [], nextId := 1 }

/-- `server_config.json` contents as read by `load_config`; `get` of a
missing url/key yields `none`, `sync_enabled` defaults to false. -/
structure Config where
  server_url : Option String
  api_key : Option String
  sync_enabled : Bool
  deriving DecidableEq

/-- The placeholder url of `DEFAULT_CONFIG`, treated as "not configured". -/
def DEFAULT_SERVER_URL : String := "http://your-server.com/api/access-logs"

/-- Outcome of the HTTP POST performed by the remote archive collaborator:
either a transport error (`requests.exceptions.RequestException`) or an HTTP
status code. -/
inductive RemoteResult where
  | networkError : RemoteResult
  | status : Nat → RemoteResult
  deriving DecidableEq

/-- What `record_exit` reports: either "no open entry found" or the id of
the record whose exit time was set. -/
inductive ExitOutcome where
  | noOpenEntry : ExitOutcome
  | exitRecorded : Nat → ExitOutcome
  deriving DecidableEq

/-- What `sync_and_cleanup` reports. -/
inductive SyncOutcome where
  | nothingToDo : SyncOutcome
  | cancelled : SyncOutcome
  | syncFailed : SyncOutcome
  | success : Nat → SyncOutcome
  deriving DecidableEq

/-- Result of a `sync_and_cleanup` call: the store afterwards, the reported
outcome, whether the remote archive client was invoked at all, and the
configuration afterwards (the function only ever reads it). -/
structure SyncResult where
  store : Store
  outcome : SyncOutcome
  remoteCalled : Bool
  configOut : Config
  deriving DecidableEq

/-- Result of `show_custom_date_logs`: `rows = none` models the early return
with the "Invalid date format" message; `storeAccessed` records whether the
function reached `sqlite3.connect`. -/
structure QueryResult where
  rows : Option (List AccessRecord)
  storeAccessed : Bool
  deriving DecidableEq

/-! ### Lifecycle manager (`record_entry`, `record_exit` of `logger2.py`) -/

/-- `record_entry(name)`: INSERT a fresh row with today's date, the current
time as entry time, `exit_time` NULL, `synced` 0.  `res` is the operator's
allowed/denied answer (already stripped/lowered by the input adapter) and
`reasonInput` the reason the adapter asks for iff `res == "denied"`.  The
clock strings `today`/`now` come from the external clock provider. -/
def record_entry (s : Store) (name today now res reasonInput : String) : Store :=
  let row : AccessRecord :=
    { id := s.nextId, name := name, date := today,
      entry_time := some now, exit_time := none, result := res,
      reason := if res == "denied" then some reasonInput else none,
      synced := false }
  { rows := s.rows ++ [row], nextId := s.nextId + 1 }

/-- The WHERE clause of `record_exit`'s SELECT:
`name = ? AND date = ? AND exit_time IS NULL AND result = 'allowed'`. -/
def isOpenAllowed (name today : String) (r : AccessRecord) : Bool :=
  r.name == name && r.date == today && r.exit_time == none && r.result == "allowed"

/-- `ORDER BY id DESC LIMIT 1` over the rows matched by `isOpenAllowed`:
the largest matching id, if any row matches. -/
def selectExitCandidate (s : Store) (name today : String) : Option Nat :=
  maxOfList ((s.rows.filter (isOpenAllowed name today)).map (fun r => r.id))

/-- `record_exit(name)`: find the most recent open allowed entry for `name`
today and UPDATE its `exit_time`; report "no open entry" when none match. -/
def record_exit (s : Store) (name today exitTime : String) : Store × ExitOutcome :=
  match selectExitCandidate s name today with
  | none => (s, ExitOutcome.noOpenEntry)
  | some recId =>
    ({ s with rows := s.rows.map (fun r =>
        if r.id == recId then { r with exit_time := some exitTime } else r) },
     ExitOutcome.exitRecorded recId)

/-! ### Query/reporting (`show_logs`, `show_custom_date_logs`, `show_today`) -/

/-- Comparator for the nullable `entry_time` column (NULL first ascending). -/
def entryTimeLe : Option String → Option String → Bool := optLeB strLeB

/-- `ORDER BY date, entry_time` (ascending), as in the stale-record query. -/
def staleLe : AccessRecord → AccessRecord → Bool :=
  thenLe (pullLe (fun r => r.date) strLeB) (pullLe (fun r => r.entry_time) entryTimeLe)

/-- `ORDER BY date DESC, entry_time DESC`, as in `show_logs`. -/
def rangeLe : AccessRecord → AccessRecord → Bool := flipLe staleLe

/-- `ORDER BY entry_time DESC`, as in `show_custom_date_logs`. -/
def customLe : AccessRecord → AccessRecord → Bool :=
  flipLe (pullLe (fun r => r.entry_time) entryTimeLe)

/-- The query of `show_logs`: `date BETWEEN ? AND ? ORDER BY date DESC,
entry_time DESC`.  The period dispatch (today/week/month) only computes the
two bounds from the external clock, so they are parameters here. -/
def show_logs (s : Store) (startDate endDate : String) : List AccessRecord :=
  sortB rangeLe
    (s.rows.filter (fun r => strLeB startDate r.date && strLeB r.date endDate))

/-- Numeric value of a digit character. -/
def dVal (c : Char) : Nat := c.toNat - 48

/-- One or two leading digit characters and the remaining input, as matched
by CPython strptime's month/day patterns (at most two digits, greedily). -/
def parse2d : List Char → Option (Nat × List Char)
  | c1 :: c2 :: rest =>
    if c1.isDigit then
      if c2.isDigit then some (10 * dVal c1 + dVal c2, rest)
      else some (dVal c1, c2 :: rest)
    else none
  | [c1] => if c1.isDigit then some (dVal c1, []) else none
  | [] => none

/-- The shape check of `datetime.strptime(s, "%Y-%m-%d")`: exactly four
digits, a dash, one or two digits, a dash, one or two digits, end of input.
Returns the numeric year, month and day. -/
def parseYMD (s : String) : Option (Nat × Nat × Nat) :=
  match s.toList with
  | y1 :: y2 :: y3 :: y4 :: '-' :: rest =>
    if y1.isDigit && y2.isDigit && y3.isDigit && y4.isDigit then
      match parse2d rest with
      | some (m, '-' :: rest2) =>
        match parse2d rest2 with
        | some (d, []) =>
          some (1000 * dVal y1 + 100 * dVal y2 + 10 * dVal y3 + dVal y4, m, d)
        | _ => none
      | _ => none
    else none
  | _ => none

/-- Gregorian leap-year rule used by `datetime`. -/
def isLeapYear (y : Nat) : Bool := y % 4 == 0 && (y % 100 != 0 || y % 400 == 0)

/-- Days in a month as validated by the `datetime` constructor. -/
def daysInMonth (y m : Nat) : Nat :=
  if m == 2 then (if isLeapYear y then 29 else 28)
  else if m == 4 || m == 6 || m == 9 || m == 11 then 30
  else 31

/-- Whether `datetime.strptime(s, "%Y-%m-%d")` succeeds: the shape must
match and the components must form a real calendar date (year within
`datetime`'s 1..9999, month 1..12, day within the month). -/
def is_valid_ymd (s : String) : Bool :=
  match parseYMD s with
  | none => false
  | some (y, m, d) =>
    1 ≤ y && 1 ≤ m && m ≤ 12 && 1 ≤ d && d ≤ daysInMonth y m

/-- `show_custom_date_logs`: validate the operator's date string (already
stripped by the input adapter); on failure report the format error without
touching the store, otherwise run
`WHERE date = ? ORDER BY entry_time DESC`. -/
def show_custom_date_logs (s : Store) (date_str : String) : QueryResult :=
  if is_valid_ymd date_str then
    { rows := some (sortB customLe (s.rows.filter (fun r => r.date == date_str))),
      storeAccessed := true }
  else
    { rows := none, storeAccessed := false }

/-! ### Retention/sync manager (`logger2.py`) -/

/-- `get_records_older_than_30_days`: `WHERE date < ? ORDER BY date,
entry_time` where the bound is the 30-days-ago date string computed from
the external clock (parameter `thirtyDaysAgo`). -/
def get_records_older_than_30_days (s : Store) (thirtyDaysAgo : String) :
    List AccessRecord :=
  sortB staleLe (s.rows.filter (fun r => strLtB r.date thirtyDaysAgo))

/-- `send_to_server(records, config)`: refuse when sync is disabled or the
url is unset/empty/the default placeholder; otherwise the outcome is that of
the HTTP POST (success exactly on status 200). -/
def send_to_server (records : List AccessRecord) (config : Config)
    (remote : RemoteResult) : Bool :=
  if !config.sync_enabled then false
  else
    match config.server_url with
    | none => false
    | some url =>
      if url == "" || url == DEFAULT_SERVER_URL then false
      else
        match remote with
        | RemoteResult.networkError => false
        | RemoteResult.status code => code == 200

/-- `delete_old_records`: `DELETE FROM access_log WHERE id IN (...)`,
returning the kept store and the deleted row count (`cursor.rowcount`). -/
def delete_old_records (s : Store) (record_ids : List Nat) : Store × Nat :=
  let kept := s.rows.filter (fun r => !(record_ids.contains r.id))
  ({ s with rows := kept }, s.rows.length - kept.length)

/-- `sync_and_cleanup`: select the stale batch; stop if empty; ask the
operator (`confirm` is the stripped/lowered answer); send the batch to the
remote archive client; delete the batch's ids locally only when the client
reported success. -/
def sync_and_cleanup (s : Store) (config : Config)
    (thirtyDaysAgo confirm : String) (remote : RemoteResult) : SyncResult :=
  let old := get_records_older_than_30_days s thirtyDaysAgo
  if old.isEmpty then
    { store := s, outcome := SyncOutcome.nothingToDo,
      remoteCalled := false, configOut := config }
  else if confirm != "yes" then
    { store := s, outcome := SyncOutcome.cancelled,
      remoteCalled := false, configOut := config }
  else if send_to_server old config remote then
    let deleted := delete_old_records s (old.map (fun r => r.id))
    { store := deleted.1, outcome := SyncOutcome.success deleted.2,
      remoteCalled := true, configOut := config }
  else
    { store := s, outcome := SyncOutcome.syncFailed,
      remoteCalled := true, configOut := config }

/-! ### The first variant (`logger.py`): no `synced` column, no sync -/

/-- One row of `access_log` in `logger.py`'s schema. -/
structure AccessRecordV1 where
  id : Nat
  name : String
  date : String
  entry_time : Option String
  exit_time : Option String
  result : String
  reason : Option String
  deriving DecidableEq

/-- The store of the first variant. -/
structure StoreV1 where
  rows : List AccessRecordV1
  nextId : Nat
  deriving DecidableEq

/-- `logger.py`'s `init_db`: `DROP TABLE IF EXISTS access_log` followed by
`CREATE TABLE access_log (...)` — whatever the store held before, afterwards
the table is empty and the AUTOINCREMENT counter restarts at 1. -/
def init_db (s : StoreV1) : StoreV1 := { rows := [], nextId := 1 }

/-- `logger.py`'s `record_entry` (same as `logger2.py`'s, minus `synced`). -/
def v1_record_entry (s : StoreV1) (name today now res reasonInput : String) :
    StoreV1 :=
  let row : AccessRecordV1 :=
    { id := s.nextId, name := name, date := today,
      entry_time := some now, exit_time := none, result := res,
      reason := if res == "denied" then some reasonInput else none }
  { rows := s.rows ++ [row], nextId := s.nextId + 1 }

/-- `ORDER BY name`, as in `show_today`. -/
def nameLeV1 : AccessRecordV1 → AccessRecordV1 → Bool :=
  pullLe (fun r => r.name) strLeB

/-- `logger.py`'s `show_today`: `WHERE date = ? ORDER BY name`. -/
def show_today (s : StoreV1) (today : String) : List AccessRecordV1 :=
  sortB nameLeV1 (s.rows.filter (fun r => r.date == today))

/-! ### Sequences of lifecycle operations and store well-formedness -/

/-- One interactive lifecycle step, with the clock readings and operator
answers it consumed. -/
inductive Op where
  | opEntry (name today now res reasonInput : String) : Op
  | opExit (name today now : String) : Op

/-- Apply one lifecycle step to the store. -/
def applyOp (s : Store) : Op → Store
  | Op.opEntry name today now res reasonInput =>
    record_entry s name today now res reasonInput
  | Op.opExit name today now => (record_exit s name today now).1

/-- Run a sequence of entry/exit operations. -/
def runOps (s : Store) (ops : List Op) : Store := ops.foldl applyOp s

/-- Store states reachable by the program: ids are distinct (the PRIMARY KEY
constraint) and below the AUTOINCREMENT counter. -/
def Wf (s : Store) : Prop :=
  (s.rows.map (fun r => r.id)).Nodup ∧ ∀ r ∈ s.rows, r.id < s.nextId

/-! ### Helper lemmas about the embedding -/

theorem selectExitCandidate_eq_none_iff (s : Store) (name today : String) :
    selectExitCandidate s name today = none ↔
      s.rows.filter (isOpenAllowed name today) = [] := by
  unfold selectExitCandidate
  rw [maxOfList_eq_none_iff, List.map_eq_nil]

theorem selectExitCandidate_spec (s : Store) (name today : String) (m : Nat)
    (h : selectExitCandidate s name today = some m) :
    (∃ c ∈ s.rows.filter (isOpenAllowed name today), c.id = m) ∧
      ∀ c ∈ s.rows.filter (isOpenAllowed name today), c.id ≤ m := by
  unfold selectExitCandidate at h
  obtain ⟨hmem, hle⟩ := maxOfList_spec _ m h
  constructor
  · rcases List.mem_map.mp hmem with ⟨c, hc, hcid⟩
    exact ⟨c, hc, hcid⟩
  · intro c hc
    exact hle c.id (List.mem_map.mpr ⟨c, hc, rfl⟩)

/-- The UPDATE of `record_exit` never changes a row's id. -/
theorem exitUpdate_id (r : AccessRecord) (m : Nat) (t : String) :
    (if r.id == m then { r with exit_time := some t } else r).id = r.id := by
  by_cases h : (r.id == m) = true <;> simp [h]

theorem exitUpdate_map_id (rows : List AccessRecord) (m : Nat) (t : String) :
    ((rows.map (fun r => if r.id == m then { r with exit_time := some t } else r)).map
        (fun r => r.id)) = rows.map (fun r => r.id) := by
  induction rows with
  | nil => rfl
  | cons r rs ih =>
    simp only [List.map_cons, ih, exitUpdate_id]

theorem wf_initStore : Wf initStore := by
  constructor
  · simp [initStore]
  · intro r hr
    simp [initStore] at hr

theorem wf_record_entry (s : Store) (h : Wf s)
    (name today now res reasonInput : String) :
    Wf (record_entry s name today now res reasonInput) := by
  obtain ⟨hnd, hlt⟩ := h
  constructor
  · simp only [record_entry, List.map_append, List.map_cons, List.map_nil]
    rw [List.nodup_append]
    refine ⟨hnd, List.nodup_singleton _, ?_⟩
    intro x hx hx'
    simp only [List.mem_singleton] at hx'
    subst hx'
    rcases List.mem_map.mp hx with ⟨r, hr, hrid⟩
    exact absurd (hrid ▸ hlt r hr) (lt_irrefl _)
  · intro r hr
    simp only [record_entry, List.mem_append, List.mem_singleton] at hr
    rcases hr with hr | hr
    · exact Nat.lt_trans (hlt r hr) (Nat.lt_succ_self _)
    · subst hr
      exact Nat.lt_succ_self _

theorem wf_record_exit (s : Store) (h : Wf s) (name today t : String) :
    Wf (record_exit s name today t).1 := by
  obtain ⟨hnd, hlt⟩ := h
  unfold record_exit
  cases hsel : selectExitCandidate s name today with
  | none => exact ⟨hnd, hlt⟩
  | some m =>
    constructor
    · rw [exitUpdate_map_id]
      exact hnd
    · intro r hr
      rcases List.mem_map.mp hr with ⟨x, hx, hxr⟩
      subst hxr
      rw [exitUpdate_id]
      exact hlt x hx

theorem wf_applyOp (s : Store) (h : Wf s) (op : Op) : Wf (applyOp s op) := by
  cases op with
  | opEntry name today now res reasonInput =>
    exact wf_record_entry s h name today now res reasonInput
  | opExit name today now => exact wf_record_exit s h name today now

theorem wf_runOps (ops : List Op) : ∀ s : Store, Wf s → Wf (runOps s ops) := by
  induction ops with
  | nil => intro s h; exact h
  | cons op ops ih =>
    intro s h
    exact ih (applyOp s op) (wf_applyOp s h op)

/-- Under unique ids, every row carrying the id selected by
`selectExitCandidate` is the selected open allowed entry itself. -/
theorem row_with_selected_id (s : Store) (name today : String) (m : Nat)
    (hnd : (s.rows.map (fun r => r.id)).Nodup)
    (hsel : selectExitCandidate s name today = some m) :
    ∀ r ∈ s.rows, r.id = m → isOpenAllowed name today r = true := by
  intro r hr hrm
  obtain ⟨⟨c, hc, hcid⟩, _⟩ := selectExitCandidate_spec s name today m hsel
  have hcrows : c ∈ s.rows := List.mem_of_mem_filter hc
  have hcopen : isOpenAllowed name today c = true := List.of_mem_filter hc
  have : r = c := List.inj_on_of_nodup_map hnd hr hcrows (by rw [hrm, hcid])
  rw [this]
  exact hcopen

/-- If every row carrying the selected id is an allowed one, the UPDATE of
`record_exit` leaves the sublist of denied rows untouched. -/
theorem filter_denied_update (m : Nat) (t : String) :
    ∀ l : List AccessRecord, (∀ r ∈ l, r.id = m → r.result = "allowed") →
      ((l.map (fun r => if r.id == m then { r with exit_time := some t } else r)).filter
          (fun r => r.result == "denied")) =
        l.filter (fun r => r.result == "denied") := by
  intro l
  induction l with
  | nil => intro _; rfl
  | cons r rs ih =>
    intro h
    have h' : ∀ x ∈ rs, x.id = m → x.result = "allowed" :=
      fun x hx => h x (List.mem_cons_of_mem r hx)
    simp only [List.map_cons, List.filter_cons, ih h']
    by_cases hid : (r.id == m) = true
    · have hres : r.result = "allowed" :=
        h r (List.mem_cons_self r rs) (beq_iff_eq.mp hid)
      have hb : (("allowed" : String) == "denied") = false := by decide
      simp [hid, hres, hb]
    · simp [hid]

theorem staleLe_total : TotalB staleLe :=
  thenLe_total _ _ (pullLe_total _ _ strLeB_total)
    (pullLe_total _ _ (optLeB_total _ strLeB_total))

theorem staleLe_trans : TransB staleLe :=
  thenLe_trans _ _ (pullLe_trans _ _ strLeB_trans)
    (pullLe_trans _ _ (optLeB_trans _ strLeB_trans))

theorem rangeLe_total : TotalB rangeLe := flipLe_total _ staleLe_total

theorem rangeLe_trans : TransB rangeLe := flipLe_trans _ staleLe_trans

theorem customLe_total : TotalB customLe :=
  flipLe_total _ (pullLe_total _ _ (optLeB_total _ strLeB_total))

theorem customLe_trans : TransB customLe :=
  flipLe_trans _ (pullLe_trans _ _ (optLeB_trans _ strLeB_trans))

theorem nameLeV1_total : TotalB nameLeV1 := pullLe_total _ _ strLeB_total

theorem nameLeV1_trans : TransB nameLeV1 := pullLe_trans _ _ strLeB_trans

theorem contains_iff_mem (l : List Nat) (a : Nat) : l.contains a = true ↔ a ∈ l := by
  unfold List.contains
  exact List.elem_iff

/-! ### Branch equations for `sync_and_cleanup` -/

theorem sync_eq_nothing (s : Store) (config : Config)
    (thirtyDaysAgo confirm : String) (remote : RemoteResult)
    (h : (get_records_older_than_30_days s thirtyDaysAgo).isEmpty = true) :
    sync_and_cleanup s config thirtyDaysAgo confirm remote =
      { store := s, outcome := SyncOutcome.nothingToDo,
        remoteCalled := false, configOut := config } := by
  unfold sync_and_cleanup
  rw [if_pos h]

theorem sync_eq_cancelled (s : Store) (config : Config)
    (thirtyDaysAgo confirm : String) (remote : RemoteResult)
    (h1 : ¬ (get_records_older_than_30_days s thirtyDaysAgo).isEmpty = true)
    (h2 : confirm ≠ "yes") :
    sync_and_cleanup s config thirtyDaysAgo confirm remote =
      { store := s, outcome := SyncOutcome.cancelled,
        remoteCalled := false, configOut := config } := by
  unfold sync_and_cleanup
  rw [if_neg h1, if_pos (bne_iff_ne.mpr h2)]

theorem sync_eq_failed (s : Store) (config : Config)
    (thirtyDaysAgo confirm : String) (remote : RemoteResult)
    (h1 : ¬ (get_records_older_than_30_days s thirtyDaysAgo).isEmpty = true)
    (h2 : confirm = "yes")
    (h3 : send_to_server (get_records_older_than_30_days s thirtyDaysAgo)
            config remote = false) :
    sync_and_cleanup s config thirtyDaysAgo confirm remote =
      { store := s, outcome := SyncOutcome.syncFailed,
        remoteCalled := true, configOut := config } := by
  unfold sync_and_cleanup
  rw [if_neg h1, if_neg (by simp [h2]), if_neg (by simp [h3])]

theorem sync_eq_success (s : Store) (config : Config)
    (thirtyDaysAgo confirm : String) (remote : RemoteResult)
    (h1 : ¬ (get_records_older_than_30_days s thirtyDaysAgo).isEmpty = true)
    (h2 : confirm = "yes")
    (h3 : send_to_server (get_records_older_than_30_days s thirtyDaysAgo)
            config remote = true) :
    sync_and_cleanup s config thirtyDaysAgo confirm remote =
      { store := (delete_old_records s
          ((get_records_older_than_30_days s thirtyDaysAgo).map (fun r => r.id))).1,
        outcome := SyncOutcome.success (delete_old_records s
          ((get_records_older_than_30_days s thirtyDaysAgo).map (fun r => r.id))).2,
        remoteCalled := true, configOut := config } := by
  unfold sync_and_cleanup
  rw [if_neg h1, if_neg (by simp [h2]), if_pos h3]

/-! ### Claim theorems -/

/-- **C2.** For every sequence of entry and exit operations, `record_exit`
never sets `exit_time` on a record whose result is `"denied"`: after any
reachable store state, a `record_exit` call leaves the sublist of denied
records exactly unchanged (an exit can only touch a row matched by the
SELECT, which requires `result = 'allowed'` and `exit_time IS NULL`). -/
theorem record_exit_never_touches_denied (ops : List Op) (name today t : String) :
    ((record_exit (runOps initStore ops) name today t).1.rows.filter
        (fun r => r.result == "denied")) =
      (runOps initStore ops).rows.filter (fun r => r.result == "denied") := by
  have hwf : Wf (runOps initStore ops) := wf_runOps ops initStore wf_initStore
  unfold record_exit
  cases hsel : selectExitCandidate (runOps initStore ops) name today with
  | none => rfl
  | some m =>
    apply filter_denied_update
    intro r hr hrm
    have hopen := row_with_selected_id (runOps initStore ops) name today m
      hwf.1 hsel r hr hrm
    unfold isOpenAllowed at hopen
    simp only [Bool.and_eq_true, beq_iff_eq] at hopen
    exact hopen.2

/-- **C8.** `record_entry` always inserts exactly one new row — carrying
today's date, the current time as entry time, a null exit time and (in the
second variant) `synced = false` — appended after the unchanged existing
rows, in both program variants. -/
theorem record_entry_appends_one_row (s : Store) (v1s : StoreV1)
    (name today now res reasonInput : String) :
    (∃ row : AccessRecord,
      (record_entry s name today now res reasonInput).rows = s.rows ++ [row] ∧
      row.id = s.nextId ∧ row.name = name ∧ row.date = today ∧
      row.entry_time = some now ∧ row.exit_time = none ∧ row.result = res ∧
      row.reason = (if res == "denied" then some reasonInput else none) ∧
      row.synced = false) ∧
    (record_entry s name today now res reasonInput).rows.length =
      s.rows.length + 1 ∧
    (record_entry s name today now res reasonInput).nextId = s.nextId + 1 ∧
    (∃ row : AccessRecordV1,
      (v1_record_entry v1s name today now res reasonInput).rows =
        v1s.rows ++ [row] ∧
      row.id = v1s.nextId ∧ row.name = name ∧ row.date = today ∧
      row.entry_time = some now ∧ row.exit_time = none ∧ row.result = res ∧
      row.reason = (if res == "denied" then some reasonInput else none)) ∧
    (v1_record_entry v1s name today now res reasonInput).rows.length =
      v1s.rows.length + 1 := by
  refine ⟨⟨_, rfl, rfl, rfl, rfl, rfl, rfl, rfl, rfl, rfl⟩, ?_, rfl,
    ⟨_, rfl, rfl, rfl, rfl, rfl, rfl, rfl, rfl⟩, ?_⟩
  · simp [record_entry]
  · simp [v1_record_entry]

/-- **C10.** `logger.py`'s `init_db` drops the `access_log` table and
recreates it empty: afterwards the store holds no records at all, whatever
it held before. -/
theorem init_db_drops_all_records (s : StoreV1) :
    init_db s = { rows := [], nextId := 1 } ∧ (init_db s).rows = [] :=
  ⟨rfl, rfl⟩

/-- **C9.** When no record for `name`, dated today, with result `"allowed"`
and null `exit_time` exists, `record_exit` reports the "no open entry
found" outcome and returns the store exactly unchanged. -/
theorem record_exit_reports_no_open_entry (s : Store) (name today t : String)
    (h : s.rows.filter (isOpenAllowed name today) = []) :
    record_exit s name today t = (s, ExitOutcome.noOpenEntry) := by
  unfold record_exit
  rw [(selectExitCandidate_eq_none_iff s name today).mpr h]

/-- Store holding only a denied record for bob on 2025-01-02. -/
def storeC9 : Store :=
  let r1 : AccessRecord :=
    { id := 1, name := "bob", date := "2025-01-02",
      entry_time := some "09:00:00", exit_time := none,
      result := "denied", reason := some "no badge", synced := false }
  { rows := [r1], nextId := 2 }

theorem record_exit_reports_no_open_entry_witness :
    storeC9.rows.filter (isOpenAllowed "bob" "2025-01-02") = [] ∧
    record_exit storeC9 "bob" "2025-01-02" "17:00:00" =
      (storeC9, ExitOutcome.noOpenEntry) :=
  ⟨by decide,
   record_exit_reports_no_open_entry storeC9 "bob" "2025-01-02" "17:00:00"
     (by decide)⟩

/-- **C4.** In any store with unique ids (the PRIMARY KEY invariant) holding
two or more open allowed entries for `name` today, `record_exit` sets
`exit_time` on exactly the candidate with the largest id — every row at a
position with a different id is returned unchanged, and the row carrying
the selected id is one of the candidates and gets `exit_time` set. -/
theorem record_exit_picks_largest_id (s : Store) (name today t : String)
    (hnd : (s.rows.map (fun r => r.id)).Nodup)
    (h2 : 2 ≤ (s.rows.filter (isOpenAllowed name today)).length) :
    ∃ m, selectExitCandidate s name today = some m ∧
      (∃ c ∈ s.rows.filter (isOpenAllowed name today), c.id = m) ∧
      (∀ c ∈ s.rows.filter (isOpenAllowed name today), c.id ≤ m) ∧
      (record_exit s name today t).2 = ExitOutcome.exitRecorded m ∧
      (record_exit s name today t).1.rows.length = s.rows.length ∧
      (∀ i : Nat, ∀ r : AccessRecord, s.rows[i]? = some r → r.id ≠ m →
        (record_exit s name today t).1.rows[i]? = some r) ∧
      (∀ i : Nat, ∀ r : AccessRecord, s.rows[i]? = some r → r.id = m →
        isOpenAllowed name today r = true ∧
        (record_exit s name today t).1.rows[i]? =
          some { r with exit_time := some t }) := by
  have hne : s.rows.filter (isOpenAllowed name today) ≠ [] := by
    intro hnil
    rw [hnil] at h2
    simp at h2
  obtain ⟨m, hm⟩ : ∃ m, selectExitCandidate s name today = some m := by
    cases hsel : selectExitCandidate s name today with
    | none =>
      exact absurd ((selectExitCandidate_eq_none_iff s name today).mp hsel) hne
    | some m => exact ⟨m, rfl⟩
  obtain ⟨hex, hub⟩ := selectExitCandidate_spec s name today m hm
  have hre : record_exit s name today t =
      ({ rows := s.rows.map (fun r =>
           if r.id == m then { r with exit_time := some t } else r),
         nextId := s.nextId }, ExitOutcome.exitRecorded m) := by
    unfold record_exit
    rw [hm]
  refine ⟨m, hm, hex, hub, by rw [hre], ?_, ?_, ?_⟩
  · rw [hre]
    simp
  · intro i r hir hrm
    rw [hre]
    simp only
    rw [List.getElem?_map, hir]
    have hbeq : (r.id == m) = false := by simp [hrm]
    simp only [Option.map_some']
    rw [if_neg (by simp [hbeq])]
  · intro i r hir hrm
    have hopen : isOpenAllowed name today r = true :=
      row_with_selected_id s name today m hnd hm r (List.getElem?_mem hir) hrm
    refine ⟨hopen, ?_⟩
    rw [hre]
    simp only
    rw [List.getElem?_map, hir]
    have hbeq : (r.id == m) = true := by simp [hrm]
    simp only [Option.map_some']
    rw [if_pos hbeq]

/-- Store with two open allowed entries for alice on 2025-01-02. -/
def storeC4 : Store :=
  let r1 : AccessRecord :=
    { id := 1, name := "alice", date := "2025-01-02",
      entry_time := some "08:00:00", exit_time := none,
      result := "allowed", reason := none, synced := false }
  let r2 : AccessRecord :=
    { id := 2, name := "alice", date := "2025-01-02",
      entry_time := some "12:00:00", exit_time := none,
      result := "allowed", reason := none, synced := false }
  { rows := [r1, r2], nextId := 3 }

theorem record_exit_picks_largest_id_witness :
    (storeC4.rows.map (fun r => r.id)).Nodup ∧
    2 ≤ (storeC4.rows.filter (isOpenAllowed "alice" "2025-01-02")).length ∧
    (∃ m, selectExitCandidate storeC4 "alice" "2025-01-02" = some m ∧
      (∃ c ∈ storeC4.rows.filter (isOpenAllowed "alice" "2025-01-02"),
        c.id = m) ∧
      (∀ c ∈ storeC4.rows.filter (isOpenAllowed "alice" "2025-01-02"),
        c.id ≤ m) ∧
      (record_exit storeC4 "alice" "2025-01-02" "17:00:00").2 =
        ExitOutcome.exitRecorded m ∧
      (record_exit storeC4 "alice" "2025-01-02" "17:00:00").1.rows.length =
        storeC4.rows.length ∧
      (∀ i : Nat, ∀ r : AccessRecord, storeC4.rows[i]? = some r → r.id ≠ m →
        (record_exit storeC4 "alice" "2025-01-02" "17:00:00").1.rows[i]? =
          some r) ∧
      (∀ i : Nat, ∀ r : AccessRecord, storeC4.rows[i]? = some r → r.id = m →
        isOpenAllowed "alice" "2025-01-02" r = true ∧
        (record_exit storeC4 "alice" "2025-01-02" "17:00:00").1.rows[i]? =
          some { r with exit_time := some "17:00:00" })) :=
  ⟨by decide, by decide,
   record_exit_picks_largest_id storeC4 "alice" "2025-01-02" "17:00:00"
     (by decide) (by decide)⟩

/-- **C1.** `sync_and_cleanup` deletes locally iff the remote client
reported success for the stale batch: if `send_to_server` reports failure
(including disabled sync and unconfigured url) the store is unchanged; any
change of the store, and any reported success, implies `send_to_server`
returned true; and on the success path exactly the batch's ids are deleted
and the deleted count reported. -/
theorem sync_and_cleanup_all_or_nothing (s : Store) (config : Config)
    (thirtyDaysAgo confirm : String) (remote : RemoteResult) :
    (send_to_server (get_records_older_than_30_days s thirtyDaysAgo) config
        remote = false →
      (sync_and_cleanup s config thirtyDaysAgo confirm remote).store = s) ∧
    ((sync_and_cleanup s config thirtyDaysAgo confirm remote).store ≠ s →
      send_to_server (get_records_older_than_30_days s thirtyDaysAgo) config
        remote = true) ∧
    (∀ d, (sync_and_cleanup s config thirtyDaysAgo confirm remote).outcome =
        SyncOutcome.success d →
      send_to_server (get_records_older_than_30_days s thirtyDaysAgo) config
        remote = true) ∧
    (get_records_older_than_30_days s thirtyDaysAgo ≠ [] → confirm = "yes" →
      send_to_server (get_records_older_than_30_days s thirtyDaysAgo) config
        remote = true →
      (sync_and_cleanup s config thirtyDaysAgo confirm remote).store.rows =
        s.rows.filter (fun r =>
          !(((get_records_older_than_30_days s thirtyDaysAgo).map
              (fun x => x.id)).contains r.id)) ∧
      (sync_and_cleanup s config thirtyDaysAgo confirm remote).outcome =
        SyncOutcome.success (s.rows.length -
          (s.rows.filter (fun r =>
            !(((get_records_older_than_30_days s thirtyDaysAgo).map
                (fun x => x.id)).contains r.id))).length)) := by
  by_cases hemp : (get_records_older_than_30_days s thirtyDaysAgo).isEmpty = true
  · have hres := sync_eq_nothing s config thirtyDaysAgo confirm remote hemp
    have hnil : get_records_older_than_30_days s thirtyDaysAgo = [] :=
      List.isEmpty_iff.mp hemp
    refine ⟨fun _ => by rw [hres], fun hne => absurd (by rw [hres]) hne,
      fun d hd => ?_, fun hne => absurd hnil hne⟩
    rw [hres] at hd
    simp at hd
  · by_cases hconf : confirm = "yes"
    · by_cases hsend : send_to_server
        (get_records_older_than_30_days s thirtyDaysAgo) config remote = true
      · have hres := sync_eq_success s config thirtyDaysAgo confirm remote
          hemp hconf hsend
        refine ⟨fun hf => ?_, fun _ => hsend, fun d _ => hsend,
          fun _ _ _ => ⟨by rw [hres]; exact rfl, by rw [hres]; exact rfl⟩⟩
        rw [hf] at hsend
        exact absurd hsend (by simp)
      · have hsend' : send_to_server
            (get_records_older_than_30_days s thirtyDaysAgo) config remote =
            false := by
          cases hsv : send_to_server
            (get_records_older_than_30_days s thirtyDaysAgo) config remote with
          | true => exact absurd hsv hsend
          | false => rfl
        have hres := sync_eq_failed s config thirtyDaysAgo confirm remote
          hemp hconf hsend'
        refine ⟨fun _ => by rw [hres], fun hne => absurd (by rw [hres]) hne,
          fun d hd => ?_, fun _ _ hs => absurd hs hsend⟩
        rw [hres] at hd
        simp at hd
    · have hres := sync_eq_cancelled s config thirtyDaysAgo confirm remote
        hemp hconf
      refine ⟨fun _ => by rw [hres], fun hne => absurd (by rw [hres]) hne,
        fun d hd => ?_, fun _ hc _ => absurd hc hconf⟩
      rw [hres] at hd
      simp at hd

/-- An old (stale) allowed record dated 2025-08-01. -/
def recC1old : AccessRecord :=
  { id := 1, name := "old", date := "2025-08-01",
    entry_time := some "09:00:00", exit_time := none,
    result := "allowed", reason := none, synced := false }

/-- A fresh allowed record dated 2025-10-10. -/
def recC1fresh : AccessRecord :=
  { id := 2, name := "fresh", date := "2025-10-10",
    entry_time := some "10:00:00", exit_time := none,
    result := "allowed", reason := none, synced := false }

def storeC1 : Store := { rows := [recC1old, recC1fresh], nextId := 3 }

def configC1 : Config :=
  { server_url := some "http://archive.example.com/api",
    api_key := some "key-1", sync_enabled := true }

theorem sync_and_cleanup_all_or_nothing_witness :
    get_records_older_than_30_days storeC1 "2025-09-12" ≠ [] ∧
    send_to_server (get_records_older_than_30_days storeC1 "2025-09-12")
      configC1 (RemoteResult.status 200) = true ∧
    (sync_and_cleanup storeC1 configC1 "2025-09-12" "yes"
        (RemoteResult.status 200)).store.rows =
      storeC1.rows.filter (fun r =>
        !(((get_records_older_than_30_days storeC1 "2025-09-12").map
            (fun x => x.id)).contains r.id)) ∧
    (sync_and_cleanup storeC1 configC1 "2025-09-12" "yes"
        (RemoteResult.status 200)).outcome =
      SyncOutcome.success (storeC1.rows.length -
        (storeC1.rows.filter (fun r =>
          !(((get_records_older_than_30_days storeC1 "2025-09-12").map
              (fun x => x.id)).contains r.id))).length) :=
  ⟨by decide, by decide,
   ((sync_and_cleanup_all_or_nothing storeC1 configC1 "2025-09-12" "yes"
       (RemoteResult.status 200)).2.2.2 (by decide) rfl (by decide)).1,
   ((sync_and_cleanup_all_or_nothing storeC1 configC1 "2025-09-12" "yes"
       (RemoteResult.status 200)).2.2.2 (by decide) rfl (by decide)).2⟩

/-- **C5.** Any operator confirmation other than an affirmative `"yes"`
aborts `sync_and_cleanup` with no side effects: the store and the
configuration are exactly as before, the remote archive client is never
invoked, and no success is reported. -/
theorem confirm_gate_no_side_effects (s : Store) (config : Config)
    (thirtyDaysAgo confirm : String) (remote : RemoteResult)
    (h : confirm ≠ "yes") :
    (sync_and_cleanup s config thirtyDaysAgo confirm remote).store = s ∧
    (sync_and_cleanup s config thirtyDaysAgo confirm remote).configOut =
      config ∧
    (sync_and_cleanup s config thirtyDaysAgo confirm remote).remoteCalled =
      false ∧
    ∀ d, (sync_and_cleanup s config thirtyDaysAgo confirm remote).outcome ≠
      SyncOutcome.success d := by
  by_cases hemp : (get_records_older_than_30_days s thirtyDaysAgo).isEmpty = true
  · rw [sync_eq_nothing s config thirtyDaysAgo confirm remote hemp]
    exact ⟨rfl, rfl, rfl, fun d hd => by simp at hd⟩
  · rw [sync_eq_cancelled s config thirtyDaysAgo confirm remote hemp h]
    exact ⟨rfl, rfl, rfl, fun d hd => by simp at hd⟩

/-- A stale denied record dated 2025-07-15. -/
def recC5 : AccessRecord :=
  { id := 1, name := "carol", date := "2025-07-15",
    entry_time := some "11:00:00", exit_time := none,
    result := "denied", reason := some "expired badge", synced := false }

def storeC5 : Store := { rows := [recC5], nextId := 2 }

def configC5 : Config :=
  { server_url := some "http://archive.example.com/api",
    api_key := some "key-5", sync_enabled := true }

theorem confirm_gate_no_side_effects_witness :
    ("no" : String) ≠ "yes" ∧
    (sync_and_cleanup storeC5 configC5 "2025-09-12" "no"
        (RemoteResult.status 200)).store = storeC5 ∧
    (sync_and_cleanup storeC5 configC5 "2025-09-12" "no"
        (RemoteResult.status 200)).configOut = configC5 ∧
    (sync_and_cleanup storeC5 configC5 "2025-09-12" "no"
        (RemoteResult.status 200)).remoteCalled = false ∧
    ∀ d, (sync_and_cleanup storeC5 configC5 "2025-09-12" "no"
        (RemoteResult.status 200)).outcome ≠ SyncOutcome.success d :=
  ⟨by decide,
   (confirm_gate_no_side_effects storeC5 configC5 "2025-09-12" "no"
     (RemoteResult.status 200) (by decide)).1,
   (confirm_gate_no_side_effects storeC5 configC5 "2025-09-12" "no"
     (RemoteResult.status 200) (by decide)).2.1,
   (confirm_gate_no_side_effects storeC5 configC5 "2025-09-12" "no"
     (RemoteResult.status 200) (by decide)).2.2.1,
   (confirm_gate_no_side_effects storeC5 configC5 "2025-09-12" "no"
     (RemoteResult.status 200) (by decide)).2.2.2⟩

/-- **C3.** The stale-record selection returns exactly the records whose
date is strictly earlier than the 30-day cutoff, ordered ascending by date
then entry time; consequently, in a store with unique ids, `sync_and_cleanup`
never removes any record whose date is not earlier than the cutoff. -/
theorem stale_selection_spec (s : Store) (thirtyDaysAgo : String) :
    List.Perm (get_records_older_than_30_days s thirtyDaysAgo)
      (s.rows.filter (fun r => strLtB r.date thirtyDaysAgo)) ∧
    (get_records_older_than_30_days s thirtyDaysAgo).Pairwise
      (fun a b => staleLe a b = true) ∧
    (∀ r ∈ get_records_older_than_30_days s thirtyDaysAgo,
      strLtB r.date thirtyDaysAgo = true) ∧
    (∀ (config : Config) (confirm : String) (remote : RemoteResult)
      (r : AccessRecord),
      (s.rows.map (fun x => x.id)).Nodup → r ∈ s.rows →
      strLtB r.date thirtyDaysAgo = false →
      r ∈ (sync_and_cleanup s config thirtyDaysAgo confirm remote).store.rows) := by
  refine ⟨?_, ?_, ?_, ?_⟩
  · unfold get_records_older_than_30_days
    exact sortB_perm staleLe _
  · unfold get_records_older_than_30_days
    exact sortB_pairwise staleLe staleLe_total staleLe_trans _
  · intro r hr
    unfold get_records_older_than_30_days at hr
    exact (List.mem_filter.mp ((sortB_perm staleLe _).mem_iff.mp hr)).2
  · intro config confirm remote r hnd hr hdate
    by_cases hemp :
        (get_records_older_than_30_days s thirtyDaysAgo).isEmpty = true
    · rw [sync_eq_nothing s config thirtyDaysAgo confirm remote hemp]
      exact hr
    · by_cases hconf : confirm = "yes"
      · by_cases hsend : send_to_server
          (get_records_older_than_30_days s thirtyDaysAgo) config remote = true
        · rw [sync_eq_success s config thirtyDaysAgo confirm remote hemp
            hconf hsend]
          show r ∈ s.rows.filter (fun x =>
            !(((get_records_older_than_30_days s thirtyDaysAgo).map
                (fun y => y.id)).contains x.id))
          refine List.mem_filter.mpr ⟨hr, ?_⟩
          by_cases hc : ((get_records_older_than_30_days s thirtyDaysAgo).map
              (fun y => y.id)).contains r.id = true
          · exfalso
            have hmem : r.id ∈ (get_records_older_than_30_days s
                thirtyDaysAgo).map (fun y => y.id) :=
              (contains_iff_mem _ _).mp hc
            rcases List.mem_map.mp hmem with ⟨c, hcmem, hcid⟩
            unfold get_records_older_than_30_days at hcmem
            have hcfilter : c ∈ s.rows.filter
                (fun x => strLtB x.date thirtyDaysAgo) :=
              (sortB_perm staleLe _).mem_iff.mp hcmem
            have hcrows : c ∈ s.rows := List.mem_of_mem_filter hcfilter
            have hcdate : strLtB c.date thirtyDaysAgo = true :=
              (List.mem_filter.mp hcfilter).2
            have hcr : c = r := List.inj_on_of_nodup_map hnd hcrows hr hcid
            rw [hcr, hdate] at hcdate
            exact Bool.false_ne_true hcdate
          · have hc' : ((get_records_older_than_30_days s thirtyDaysAgo).map
                (fun y => y.id)).contains r.id = false := by
              cases hcv : ((get_records_older_than_30_days s
                  thirtyDaysAgo).map (fun y => y.id)).contains r.id with
              | true => exact absurd hcv hc
              | false => rfl
            have hgoal : (!(((get_records_older_than_30_days s
                thirtyDaysAgo).map (fun y => y.id)).contains r.id)) = true := by
              rw [hc']
              rfl
            exact hgoal
        · have hsend' : send_to_server
              (get_records_older_than_30_days s thirtyDaysAgo) config remote =
              false := by
            cases hsv : send_to_server
              (get_records_older_than_30_days s thirtyDaysAgo) config
              remote with
            | true => exact absurd hsv hsend
            | false => rfl
          rw [sync_eq_failed s config thirtyDaysAgo confirm remote hemp
            hconf hsend']
          exact hr
      · rw [sync_eq_cancelled s config thirtyDaysAgo confirm remote hemp hconf]
        exact hr

/-- A stale allowed record dated 45 days before 2025-10-12. -/
def recC3old : AccessRecord :=
  { id := 1, name := "dora", date := "2025-08-28",
    entry_time := some "08:30:00", exit_time := some "16:00:00",
    result := "allowed", reason := none, synced := false }

/-- A fresh allowed record dated 10 days before 2025-10-12. -/
def recC3fresh : AccessRecord :=
  { id := 2, name := "erik", date := "2025-10-02",
    entry_time := some "09:15:00", exit_time := none,
    result := "allowed", reason := none, synced := false }

def storeC3 : Store := { rows := [recC3old, recC3fresh], nextId := 3 }

def configC3 : Config :=
  { server_url := some "http://archive.example.com/api",
    api_key := some "key-3", sync_enabled := true }

theorem stale_selection_spec_witness :
    (storeC3.rows.map (fun x => x.id)).Nodup ∧
    recC3fresh ∈ storeC3.rows ∧
    strLtB recC3fresh.date "2025-09-12" = false ∧
    recC3fresh ∈ (sync_and_cleanup storeC3 configC3 "2025-09-12" "yes"
      (RemoteResult.status 200)).store.rows :=
  ⟨by decide, by decide, by decide,
   (stale_selection_spec storeC3 "2025-09-12").2.2.2 configC3 "yes"
     (RemoteResult.status 200) recC3fresh (by decide) (by decide) (by decide)⟩

/-- **C6.** For every input string that `strptime("%Y-%m-%d")` rejects, the
exact-date listing reports a format error: it yields no rows and never
reaches the store. -/
theorem invalid_date_reports_format_error (s : Store) (date_str : String)
    (h : is_valid_ymd date_str = false) :
    (show_custom_date_logs s date_str).rows = none ∧
    (show_custom_date_logs s date_str).storeAccessed = false := by
  unfold show_custom_date_logs
  rw [if_neg (by simp [h])]
  exact ⟨rfl, rfl⟩

theorem invalid_date_reports_format_error_witness :
    is_valid_ymd "2024-02-30" = false ∧
    (show_custom_date_logs initStore "2024-02-30").rows = none ∧
    (show_custom_date_logs initStore "2024-02-30").storeAccessed = false :=
  ⟨by decide,
   (invalid_date_reports_format_error initStore "2024-02-30" (by decide)).1,
   (invalid_date_reports_format_error initStore "2024-02-30" (by decide)).2⟩

/-- Allowed record for carl on 2024-01-01, entered at 10:00:00. -/
def recC7carl : AccessRecord :=
  { id := 1, name := "carl", date := "2024-01-01",
    entry_time := some "10:00:00", exit_time := none,
    result := "allowed", reason := none, synced := false }

/-- Allowed record for alice on 2024-01-01, entered at 09:00:00. -/
def recC7alice : AccessRecord :=
  { id := 2, name := "alice", date := "2024-01-01",
    entry_time := some "09:00:00", exit_time := none,
    result := "allowed", reason := none, synced := false }

def storeC7 : Store := { rows := [recC7carl, recC7alice], nextId := 3 }

/-- **C7 (counterexample).** The exact-date listing of `logger2.py` orders
by `entry_time DESC`, not ascending by name: on this store the 2024-01-01
listing outputs carl (10:00) before alice (09:00), which is not
name-ascending. -/
theorem custom_listing_not_name_ascending :
    ((show_custom_date_logs storeC7 "2024-01-01").rows.getD []).map
      (fun r => r.name) = ["carl", "alice"] ∧
    strLeB "carl" "alice" = false ∧
    ¬ ((show_custom_date_logs storeC7 "2024-01-01").rows.getD []).Pairwise
      (fun a b => strLeB a.name b.name = true) :=
  ⟨by decide, by decide, by decide⟩

/-- **C7 (amended).** Range queries (`show_logs`) return the rows of the
date range ordered descending by date then descending by entry time;
`logger2.py`'s exact-date listing returns the day's rows ordered descending
by entry time; `logger.py`'s whole-day listing (`show_today`) returns the
day's rows ascending by name.  Each output is a permutation of the matching
rows, read without modification. -/
theorem listing_order_spec (s : Store) (startDate endDate date_str : String)
    (v1s : StoreV1) (today : String) :
    (show_logs s startDate endDate).Pairwise (fun a b => rangeLe a b = true) ∧
    List.Perm (show_logs s startDate endDate)
      (s.rows.filter (fun r =>
        strLeB startDate r.date && strLeB r.date endDate)) ∧
    (∀ l, (show_custom_date_logs s date_str).rows = some l →
      l.Pairwise (fun a b => customLe a b = true) ∧
      List.Perm l (s.rows.filter (fun r => r.date == date_str))) ∧
    (show_today v1s today).Pairwise (fun a b => nameLeV1 a b = true) ∧
    List.Perm (show_today v1s today)
      (v1s.rows.filter (fun r => r.date == today)) := by
  refine ⟨?_, ?_, ?_, ?_, ?_⟩
  · unfold show_logs
    exact sortB_pairwise rangeLe rangeLe_total rangeLe_trans _
  · unfold show_logs
    exact sortB_perm rangeLe _
  · intro l hl
    unfold show_custom_date_logs at hl
    by_cases hv : is_valid_ymd date_str = true
    · rw [if_pos hv] at hl
      have hl' : some (sortB customLe
          (s.rows.filter (fun r => r.date == date_str))) = some l := hl
      have hx := Option.some.inj hl'
      subst hx
      exact ⟨sortB_pairwise customLe customLe_total customLe_trans _,
        sortB_perm customLe _⟩
    · rw [if_neg hv] at hl
      have hl' : (none : Option (List AccessRecord)) = some l := hl
      cases hl'
  · unfold show_today
    exact sortB_pairwise nameLeV1 nameLeV1_total nameLeV1_trans _
  · unfold show_today
    exact sortB_perm nameLeV1 _

theorem listing_order_spec_witness :
    (show_custom_date_logs initStore "2024-01-05").rows = some [] ∧
    ([] : List AccessRecord).Pairwise (fun a b => customLe a b = true) ∧
    List.Perm ([] : List AccessRecord)
      (initStore.rows.filter (fun r => r.date == "2024-01-05")) :=
  ⟨by decide,
   ((listing_order_spec initStore "2024-01-01" "2024-01-31" "2024-01-05"
       { rows := [], nextId := 1 } "2024-01-05").2.2.1 [] (by decide)).1,
   ((listing_order_spec initStore "2024-01-01" "2024-01-31" "2024-01-05"
       { rows := [], nextId := 1 } "2024-01-05").2.2.1 [] (by decide)).2⟩
